import Mathlib

/-!
Verification of the scaler-simulator recommender core against its
natural-language specification.

The Go sources are shallowly embedded: every function below mirrors the
control flow of the correspondingly named Go function.  External gateway
calls (the `scalesim.Engine` / `VirtualClusterAccess` interface, which is
not part of this repository) are passed in as explicit outcome parameters,
and the mutating calls a function issues are returned as an explicit trace.
Go float64 scores are embedded as rationals: the only float operation the
embedded code performs on scores is comparison, which agrees with rational
comparison on the (finite, exactly representable) values involved, with
`math.MaxFloat64` embedded as its exact rational value.
-/

namespace ScalerSim

/-- Errors are abstract; only their presence/identity matters. -/
abbrev Err := String

/-- Pods are opaque placement requests; only their identity matters here. -/
abbrev Pod := String

/-- Equality of gateway outcomes is decidable (used to evaluate the model
on concrete inputs). -/
instance exceptDecEq {ε α : Type} [DecidableEq ε] [DecidableEq α] :
    DecidableEq (Except ε α)
  | .error e₁, .error e₂ =>
    match decEq e₁ e₂ with
    | isTrue h => isTrue (h ▸ rfl)
    | isFalse h => isFalse fun hc => h (Except.error.inj hc)
  | .error _, .ok _ => isFalse fun hc => Except.noConfusion hc
  | .ok _, .error _ => isFalse fun hc => Except.noConfusion hc
  | .ok a₁, .ok a₂ =>
    match decEq a₁ a₂ with
    | isTrue h => isTrue (h ▸ rfl)
    | isFalse h => isFalse fun hc => h (Except.ok.inj hc)

/-- Embedding of `corev1.Node`: the fields the recommender reads/writes. -/
structure Node where
  name : String
  labels : List (String × String)
deriving DecidableEq

/-- Embedding of a `v1beta1.Worker` spec entry (`shoot.Spec.Provider.Workers`):
the fields read by `getEligibleNodePools`.  `maximum` is Go `int32`, embedded
as an integer. -/
structure Worker where
  name : String
  zones : List String
  maximum : Int
  machineType : String
deriving DecidableEq

/-- Embedding of the shoot object: the fields the recommender reads. -/
structure Shoot where
  name : String
  workers : List Worker
deriving DecidableEq

/-- Embedding of `scalesim.NodePool` as constructed in `getEligibleNodePools`. -/
structure NodePool where
  name : String
  zones : List String
  max : Int
  current : Int
  machineType : String
deriving DecidableEq

/-- Embedding of `scalesim.NodeRunResult`: the fields the recommender reads
(`CumulativeScore` for winner selection, plus the pool name it refers to).
The Go zero value is `⟨"", 0⟩`. -/
structure NodeRunResult where
  nodePoolName : String
  cumulativeScore : ℚ
deriving DecidableEq

/-- Embedding of `runResult` (part_000 lines 53-57). -/
structure RunResult where
  result : NodeRunResult
  unscheduledPods : List Pod
  err : Option Err
deriving DecidableEq

/-- The Go zero value of `scalesim.NodeRunResult`. -/
def zeroNodeRunResult : NodeRunResult := ⟨"", 0⟩

/-- The Go zero value of `runResult` (what `var winner runResult` starts as,
and what `runRes := runResult{}` starts as). -/
def zeroRunResult : RunResult := ⟨zeroNodeRunResult, [], none⟩

/-- The exact rational value of Go `math.MaxFloat64` = (2^53 − 1) · 2^971,
written as its decimal numeral (see `maxFloat64_eq` below). -/
def maxFloat64 : ℚ := 179769313486231570814527423731704356798070567525844996598917476803157260780028538760589558632766878171540458953514382464234321326889464182768467546703537516986049910576551282076245490090389328944075868508455133942304583236903222948165808559332123348274797826204144723168738177180919299881250404026184124858368

/-- The accumulator loop of `getWinner` (part_000 lines 227-233): the pair
carries Go's `winner` and `minScore` variables through the `for _, v :=
range results` loop; `v` replaces the winner exactly when its cumulative
score is strictly below the running minimum. -/
def getWinnerAux : List RunResult → RunResult × ℚ → RunResult × ℚ
  | [], acc => acc
  | v :: rest, (w, m) =>
    if v.result.cumulativeScore < m then getWinnerAux rest (v, v.result.cumulativeScore)
    else getWinnerAux rest (w, m)

/-- Embedding of `getWinner` (part_000 lines 225-235): `winner` starts as the
zero `runResult`, `minScore` starts at `math.MaxFloat64`. -/
def getWinner (results : List RunResult) : RunResult :=
  (getWinnerAux results (zeroRunResult, maxFloat64)).1

/-- The label key used by trials (part_000 line 176). -/
def labelKey : String := "app.kubernetes.io/simulation-run"

/-- The node-copy loop of `runSimulationForNodePool` (part_000 lines 185-191):
each sandbox node is copied, its name suffixed with `SimRun-` + labelValue,
and the simulation-run label set (the Go map assignment is embedded as an
association-list append). -/
def mkTrialNodes (labelValue : String) (nodes : List Node) : List Node :=
  nodes.map fun node =>
    { node with
        name := node.name ++ "SimRun-" ++ labelValue
        labels := node.labels ++ [(labelKey, labelValue)] }

/-- A gateway call issued by a trial, in program order.  `addNodes` is the
only sandbox-mutating call the recommender issues. -/
inductive GatewayCall
  | listNodes
  | addNodes (nodes : List Node)
  | listPods
deriving DecidableEq

/-- Outcomes of the external gateway calls a single trial makes, in the
order the Go code makes them.  `addNodesErr` is the error value returned by
`AddNodes`; the Go code discards it (part_000 line 192), which the embedding
reflects by never reading this field. -/
structure TrialEnv where
  listNodesRes : Except Err (List Node)
  addNodesErr : Option Err
  listPodsRes : Except Err (List Pod)

/-- What a trial observably does: the `runResult` values it sends on the
round's result channel, and the gateway calls it issues. -/
structure TrialOut where
  sends : List RunResult
  calls : List GatewayCall
deriving DecidableEq

/-- Embedding of `runSimulationForNodePool` (part_000 lines 172-201).
Control flow of the source: build the label value; `ListNodes` — on error,
send a `runResult` carrying the error and return; copy/label the nodes and
call `AddNodes` ignoring its returned error; `ListPods` — on error, send a
`runResult` carrying the error and return; after that the function body
ends (line 201) without sending anything on the channel. -/
def runSimulationForNodePool (env : TrialEnv) (nodePool : NodePool) (runNum : Nat) :
    TrialOut :=
  let labelValue := nodePool.name ++ "-" ++ toString runNum
  match env.listNodesRes with
  | .error e => { sends := [{ zeroRunResult with err := some e }], calls := [.listNodes] }
  | .ok nodes =>
    let nodeList := mkTrialNodes labelValue nodes
    match env.listPodsRes with
    | .error e =>
      { sends := [{ zeroRunResult with err := some e }]
        calls := [.listNodes, .addNodes nodeList, .listPods] }
    | .ok _pods =>
      { sends := []
        calls := [.listNodes, .addNodes nodeList, .listPods] }

/-- Go conversion `int32(n)` for a non-negative length `n` (wraparound
two's-complement semantics, as in `int32(len(nodes))` at part_000 line 210). -/
def toInt32 (n : Nat) : Int := ((n : Int) + 2 ^ 31) % 2 ^ 32 - 2 ^ 31

/-- The `scalesim.NodePool` literal built at part_000 lines 213-219. -/
def mkNodePool (worker : Worker) (numNodes : Nat) : NodePool :=
  { name := worker.name
    zones := worker.zones
    max := worker.maximum
    current := toInt32 numNodes
    machineType := worker.machineType }

/-- The worker loop of `getEligibleNodePools` (part_000 lines 205-221):
for each worker, query the sandbox node count in that pool (`q`); a query
error aborts the whole computation; a worker at or above its maximum is
skipped silently; otherwise its `NodePool` record is appended. -/
def getEligibleNodePoolsAux (q : String → Except Err (List Node)) :
    List Worker → Except Err (List NodePool)
  | [] => .ok []
  | worker :: rest =>
    match q worker.name with
    | .error e => .error e
    | .ok nodes =>
      if toInt32 nodes.length ≥ worker.maximum then getEligibleNodePoolsAux q rest
      else
        match getEligibleNodePoolsAux q rest with
        | .error e => .error e
        | .ok pools => .ok (mkNodePool worker nodes.length :: pools)

/-- Embedding of `getEligibleNodePools` (part_000 lines 203-223). -/
def getEligibleNodePools (q : String → Except Err (List Node)) (shoot : Shoot) :
    Except Err (List NodePool) :=
  getEligibleNodePoolsAux q shoot.workers

/-- Outcomes of the external calls made during one round: the per-pool
node-count query used by eligibility, and each pool's trial gateway
outcomes. -/
structure RoundEnv where
  listNodesInNodePool : String → Except Err (List Node)
  trial : String → TrialEnv

/-- Embedding of `triggerNodePoolSimulations` (part_000 lines 162-170): one
trial per eligible pool; all trials are joined by the wait group before the
result channel is closed, so every send of every trial is drained.  The
model lists the trial outputs in pool order; the claims proved below do not
depend on the arrival order of sends. -/
def triggerNodePoolSimulations (env : RoundEnv) (nodePools : List NodePool)
    (runNum : Nat) : List TrialOut :=
  nodePools.map fun np => runSimulationForNodePool (env.trial np.name) np runNum

/-- The `AddNodes` batches a trial issued (its sandbox mutations). -/
def trialMutations (t : TrialOut) : List (List Node) :=
  t.calls.filterMap fun c =>
    match c with
    | .addNodes ns => some ns
    | _ => none

/-- What one round returns to `Run`: the (always non-nil, see below) winner
pointer, the winner's remaining unscheduled pods, and the sandbox mutations
the round's trials issued. -/
structure RoundOut where
  winner : Option NodeRunResult
  unscheduledPods : List Pod
  mutations : List (List Node)
deriving DecidableEq

/-- Embedding of `runSimulation` (part_000 lines 119-160).  Control flow of
the source: `getEligibleNodePools` — on error, return the error; launch one
trial per eligible pool and drain the result channel (buffered to the number
of trials, closed only after the wait group joins every trial); a drained
result with non-nil `err` is NOT appended to `results` — instead line 150
executes `_ = errors.Join(errs, err)`, discarding the joined value (and
joining the outer `err`, which is nil here, rather than `result.err`), so
`errs` remains nil and the early return at lines 155-157 is dead code; the
function then always returns `&winningResult.result` — a non-nil pointer —
with `winningResult := getWinner(results)`, and a nil error. -/
def runSimulation (env : RoundEnv) (shoot : Shoot) (_pods : List Pod) (runNum : Nat) :
    Except Err RoundOut :=
  match getEligibleNodePools env.listNodesInNodePool shoot with
  | .error e => .error e
  | .ok eligibleNodePools =>
    let trialOuts := triggerNodePoolSimulations env eligibleNodePools runNum
    let collected := (trialOuts.map TrialOut.sends).flatten
    let results := collected.filter fun r => r.err.isNone
    let winningResult := getWinner results
    .ok { winner := some winningResult.result
          unscheduledPods := winningResult.unscheduledPods
          mutations := (trialOuts.map trialMutations).flatten }

/-- Outcomes of the external calls `Run` makes: the initial `ListPods`, the
shoot fetch, and each round's gateway outcomes (indexed by run number). -/
structure RunEnv where
  listPodsRes : Except Err (List Pod)
  getShootObj : Except Err Shoot
  round : Nat → RoundEnv

/-- How the `for` loop of `Run` (part_000 lines 83-100) was left.
`fuelExhausted` is a model artifact bounding the unbounded Go loop; the
other constructors are the source's three `break` reasons. -/
inductive RunExit
  | fuelExhausted
  | allScheduled
  | roundError (e : Err)
  | noWinner
deriving DecidableEq

/-- Observable state of the `Run` loop when it stops: the recommendation
map (embedded as an association list; the source never writes to it), the
sequence of winning results the rounds produced, the sandbox mutations
(`AddNodes` batches) issued, the final value of `runNumber`, and the exit
reason. -/
structure LoopOut where
  recommendation : List (String × Nat)
  winners : List NodeRunResult
  mutations : List (List Node)
  runNumber : Nat
  exit : RunExit
deriving DecidableEq

/-- Embedding of the `for` loop of `Run` (part_000 lines 83-100), with
explicit fuel.  Per iteration: increment `runNumber`; if no unscheduled
pods remain, break; run the round's simulation — on error, break (the error
is logged, not returned); if the returned winner pointer is nil, break
(unreachable: `runSimulation` always returns a non-nil pointer); otherwise
record the winner, replace the pending pods with the winner's unscheduled
pods, and continue.  The recommendation accumulator is threaded through
untouched, exactly as in the source. -/
def runLoop (env : RunEnv) (shoot : Shoot) :
    Nat → Nat → List Pod → List (String × Nat) → List NodeRunResult →
    List (List Node) → LoopOut
  | 0, runNumber, _pods, rec, winners, muts =>
    ⟨rec, winners, muts, runNumber, .fuelExhausted⟩
  | fuel + 1, runNumber, unscheduledPods, rec, winners, muts =>
    let runNumber := runNumber + 1
    if unscheduledPods.isEmpty then ⟨rec, winners, muts, runNumber, .allScheduled⟩
    else
      match runSimulation (env.round runNumber) shoot unscheduledPods runNumber with
      | .error e => ⟨rec, winners, muts, runNumber, .roundError e⟩
      | .ok out =>
        match out.winner with
        | none => ⟨rec, winners, muts ++ out.mutations, runNumber, .noWinner⟩
        | some w =>
          runLoop env shoot fuel runNumber out.unscheduledPods rec
            (winners ++ [w]) (muts ++ out.mutations)

/-- What `Run` observably returns/does: the recommendation and error
returned to the caller, plus the winner sequence, mutation trace, final run
number and loop exit reason (`none` when an early return skipped the loop). -/
structure RunOut where
  recommendation : List (String × Nat)
  err : Option Err
  winners : List NodeRunResult
  mutations : List (List Node)
  runNumber : Nat
  exit : Option RunExit
deriving DecidableEq

/-- Embedding of `Run` (part_000 lines 70-103).  Control flow of the source:
`recommendation := make(Recommendation)`; `ListPods` — on error, return the
(empty) recommendation and the error; fetch the shoot — on error, likewise;
run the loop; finally `return recommendation, nil` (line 102): whatever made
the loop break, the returned error is nil and the returned recommendation is
the map created at line 71, which no statement of the function ever writes
to. -/
def Run (env : RunEnv) (fuel : Nat) : RunOut :=
  let recommendation : List (String × Nat) := []
  match env.listPodsRes with
  | .error e => ⟨recommendation, some e, [], [], 0, none⟩
  | .ok unscheduledPods =>
    match env.getShootObj with
    | .error e => ⟨recommendation, some e, [], [], 0, none⟩
    | .ok shoot =>
      let out := runLoop env shoot fuel 0 unscheduledPods recommendation [] []
      ⟨out.recommendation, none, out.winners, out.mutations, out.runNumber,
        some out.exit⟩

/-- A write issued on the HTTP response: a normal body write, or an
`http.Error` (which writes the message and a status code). -/
inductive HttpWrite
  | body (s : String)
  | httpError (msg : String) (code : Nat)
deriving DecidableEq

/-- Embedding of the handler closure of `handleClearVirtualCluster`
(service.go lines 57-67), as the sequence of response writes it performs
given the result of `ClearAll`: it first unconditionally writes the success
body via `fmt.Fprintf`, and only then checks the error, appending an
`http.Error` write when `ClearAll` failed. -/
def handleClearVirtualCluster (clearAllErr : Option Err) : List HttpWrite :=
  let writes : List HttpWrite := [.body "Cleared virtual cluster objects"]
  match clearAllErr with
  | some e => writes ++ [.httpError e 500]
  | none => writes

/-- A trial's cumulative score (`v.result.CumulativeScore` in `getWinner`). -/
@[reducible] def score (r : RunResult) : ℚ :=
  r.result.cumulativeScore

/-- A concrete worker pool with headroom (0 current nodes, maximum 3). -/
def demoWorker : Worker := ⟨"wp-a", ["z1"], 3, "m5.large"⟩

/-- A concrete shoot with the single worker pool above. -/
def demoShoot : Shoot := ⟨"shoot-a", [demoWorker]⟩

/-- The eligible pool record the demo shoot yields at 0 sandbox nodes. -/
def demoPool : NodePool := mkNodePool demoWorker 0

/-- Trial gateway outcomes where every call succeeds. -/
def demoTrialEnv : TrialEnv := ⟨.ok [], none, .ok ["pod-a"]⟩

/-- Round gateway outcomes where every call succeeds. -/
def demoRoundEnv : RoundEnv := ⟨fun _ => .ok [], fun _ => demoTrialEnv⟩

/-- Run gateway outcomes: one initially pending pod, everything succeeds. -/
def demoRunEnv : RunEnv := ⟨.ok ["pod-a"], .ok demoShoot, fun _ => demoRoundEnv⟩

/-- Run gateway outcomes with an already-empty pending pod list. -/
def emptyPendingRunEnv : RunEnv := ⟨.ok [], .ok demoShoot, fun _ => demoRoundEnv⟩

/-- Round gateway outcomes where every trial's first gateway call fails, so
every launched trial reports a failure. -/
def allFailRoundEnv : RoundEnv :=
  ⟨fun _ => .ok [], fun _ => ⟨.error "ListNodes failed", none, .ok []⟩⟩

/-- A successful trial result for pool "b" with score 1. -/
def rbTie : RunResult := ⟨⟨"b", 1⟩, [], none⟩

/-- A successful trial result for pool "a" with the same score 1. -/
def raTie : RunResult := ⟨⟨"a", 1⟩, [], none⟩

/-- A node-count query that reports an empty sandbox pool for every name. -/
def emptyPoolQuery : String → Except Err (List Node) := fun _ => .ok []

/-- Round gateway outcomes whose eligibility query fails, so the round's
simulation returns an error. -/
def failEligibilityRoundEnv : RoundEnv :=
  ⟨fun _ => .error "boom", fun _ => demoTrialEnv⟩

/-- Run gateway outcomes where the initial calls succeed but every round
errors out. -/
def failingRoundRunEnv : RunEnv :=
  ⟨.ok ["pod-a"], .ok demoShoot, fun _ => failEligibilityRoundEnv⟩

/-- Sanity check: the decimal numeral used for `maxFloat64` is the exact
value (2^53 − 1) · 2^971 of Go `math.MaxFloat64`. -/
theorem maxFloat64_eq : maxFloat64 = ((2 : ℚ) ^ 53 - 1) * 2 ^ 971 := by
  norm_num [maxFloat64]

/-- Splitting the `getWinner` loop at a list append. -/
theorem getWinnerAux_append (l₁ l₂ : List RunResult) (acc : RunResult × ℚ) :
    getWinnerAux (l₁ ++ l₂) acc = getWinnerAux l₂ (getWinnerAux l₁ acc) := by
  induction l₁ generalizing acc with
  | nil => rfl
  | cons v rest ih =>
    obtain ⟨w, m⟩ := acc
    simp only [List.cons_append, getWinnerAux]
    split
    · exact ih _
    · exact ih _

/-- If no element beats the running minimum, the loop leaves the
accumulator unchanged. -/
theorem getWinnerAux_no_update (l : List RunResult) (acc : RunResult × ℚ) :
    (∀ r ∈ l, ¬ score r < acc.2) → getWinnerAux l acc = acc := by
  obtain ⟨w, m⟩ := acc
  induction l with
  | nil => intro _; rfl
  | cons v rest ih =>
    intro h
    simp only [getWinnerAux]
    rw [if_neg (h v (List.mem_cons_self v rest))]
    exact ih fun r hr => h r (List.mem_cons_of_mem v hr)

/-- The running minimum after the loop is a lower bound of the initial
minimum and of every processed score. -/
theorem getWinnerAux_snd_le (l : List RunResult) :
    ∀ w m, (getWinnerAux l (w, m)).2 ≤ m ∧
      ∀ r ∈ l, (getWinnerAux l (w, m)).2 ≤ score r := by
  induction l with
  | nil => intro _ m; exact ⟨le_refl m, fun r hr => absurd hr (List.not_mem_nil r)⟩
  | cons v rest ih =>
    intro w m
    simp only [getWinnerAux]
    by_cases h : score v < m
    · rw [if_pos h]
      obtain ⟨h1, h2⟩ := ih v (score v)
      refine ⟨h1.trans h.le, fun r hr => ?_⟩
      rcases List.mem_cons.mp hr with heq | hr
      · subst heq; exact h1
      · exact h2 r hr
    · rw [if_neg h]
      obtain ⟨h1, h2⟩ := ih w m
      refine ⟨h1, fun r hr => ?_⟩
      rcases List.mem_cons.mp hr with heq | hr
      · subst heq; exact h1.trans (not_lt.mp h)
      · exact h2 r hr

/-- Loop invariant: once the winner's score equals the running minimum,
this stays true, and the winner stays the initial one or comes from the
processed list. -/
theorem getWinnerAux_inv (l : List RunResult) :
    ∀ w m, score w = m →
      ((getWinnerAux l (w, m)).1 = w ∨ (getWinnerAux l (w, m)).1 ∈ l) ∧
      score (getWinnerAux l (w, m)).1 = (getWinnerAux l (w, m)).2 := by
  induction l with
  | nil => intro w m h; exact ⟨Or.inl rfl, h⟩
  | cons v rest ih =>
    intro w m h
    simp only [getWinnerAux]
    by_cases hv : score v < m
    · rw [if_pos hv]
      obtain ⟨h1, h2⟩ := ih v (score v) rfl
      refine ⟨?_, h2⟩
      rcases h1 with h1 | h1
      · exact Or.inr (by rw [h1]; exact List.mem_cons_self v rest)
      · exact Or.inr (List.mem_cons_of_mem v h1)
    · rw [if_neg hv]
      obtain ⟨h1, h2⟩ := ih w m h
      refine ⟨?_, h2⟩
      rcases h1 with h1 | h1
      · exact Or.inl h1
      · exact Or.inr (List.mem_cons_of_mem v h1)

/-- If some element beats the initial minimum, the loop's winner comes from
the list and its score is the final running minimum. -/
theorem getWinnerAux_updated (l : List RunResult) :
    ∀ w m, (∃ r ∈ l, score r < m) →
      (getWinnerAux l (w, m)).1 ∈ l ∧
      score (getWinnerAux l (w, m)).1 = (getWinnerAux l (w, m)).2 := by
  induction l with
  | nil => intro w m h; obtain ⟨r, hr, _⟩ := h; exact absurd hr (List.not_mem_nil r)
  | cons v rest ih =>
    intro w m h
    simp only [getWinnerAux]
    by_cases hv : score v < m
    · rw [if_pos hv]
      obtain ⟨h1, h2⟩ := getWinnerAux_inv rest v (score v) rfl
      refine ⟨?_, h2⟩
      rcases h1 with h1 | h1
      · rw [h1]; exact List.mem_cons_self v rest
      · exact List.mem_cons_of_mem v h1
    · rw [if_neg hv]
      have hrest : ∃ r ∈ rest, score r < m := by
        obtain ⟨r, hr, hlt⟩ := h
        rcases List.mem_cons.mp hr with heq | hr
        · subst heq; exact absurd hlt hv
        · exact ⟨r, hr, hlt⟩
      obtain ⟨h1, h2⟩ := ih w m hrest
      exact ⟨List.mem_cons_of_mem v h1, h2⟩

/-- C2 (amended): for every round with at least one successful trial (all
trial scores being finite, i.e. below `math.MaxFloat64`), the winner
returned by `getWinner` is one of the trials and its cumulative score is
less than or equal to the score of every other trial; whenever two or more
trials share the minimal score, the winner is the one occurring earliest in
the collected result list (the channel arrival order) — pool names are not
consulted. -/
theorem c2_getWinner_minimal_and_earliest (results : List RunResult)
    (hne : results ≠ [])
    (hlt : ∀ r ∈ results, score r < maxFloat64) :
    getWinner results ∈ results ∧
    (∀ r ∈ results, score (getWinner results) ≤ score r) ∧
    ∀ l₁ l₂, results = l₁ ++ l₂ →
      (∃ r ∈ l₁, ∀ x ∈ results, score r ≤ score x) →
      getWinner results = getWinner l₁ := by
  have hex : ∃ r ∈ results, score r < maxFloat64 := by
    cases results with
    | nil => exact absurd rfl hne
    | cons v rest => exact ⟨v, List.mem_cons_self v rest, hlt v (List.mem_cons_self v rest)⟩
  obtain ⟨hmem, heq⟩ := getWinnerAux_updated results zeroRunResult maxFloat64 hex
  have hsnd := getWinnerAux_snd_le results zeroRunResult maxFloat64
  refine ⟨hmem, fun r hr => ?_, fun l₁ l₂ hsplit hminIn => ?_⟩
  · calc score (getWinner results)
        = (getWinnerAux results (zeroRunResult, maxFloat64)).2 := heq
      _ ≤ score r := hsnd.2 r hr
  · subst hsplit
    obtain ⟨r, hr₁, hrmin⟩ := hminIn
    have hsnd₁ := getWinnerAux_snd_le l₁ zeroRunResult maxFloat64
    have hno : ∀ x ∈ l₂, ¬ score x < (getWinnerAux l₁ (zeroRunResult, maxFloat64)).2 := by
      intro x hx
      have h1 : (getWinnerAux l₁ (zeroRunResult, maxFloat64)).2 ≤ score r :=
        hsnd₁.2 r hr₁
      have h2 : score r ≤ score x := hrmin x (List.mem_append.mpr (Or.inr hx))
      exact not_lt.mpr (h1.trans h2)
    show getWinner (l₁ ++ l₂) = getWinner l₁
    unfold getWinner
    rw [getWinnerAux_append, getWinnerAux_no_update l₂ _ hno]

/-- C2 counterexample: two successful trials share the minimal score, with
pool names "b" and "a"; the code's winner is the one collected first
("b"), not the lexicographically smallest pool name ("a"). -/
theorem c2_tie_not_broken_lexicographically :
    rbTie.err = none ∧ raTie.err = none ∧
    score rbTie = score raTie ∧
    raTie.result.nodePoolName < rbTie.result.nodePoolName ∧
    getWinner [rbTie, raTie] = rbTie := by
  refine ⟨by decide, by decide, by decide, ?_, by decide⟩
  show ("a" : String) < "b"
  rw [String.lt_iff_toList_lt]
  exact List.Lex.rel (by decide)

/-- C2 witness: the amended theorem applied to the concrete two-element
tied result list. -/
theorem c2_getWinner_minimal_and_earliest_witness :
    ([rbTie, raTie] ≠ ([] : List RunResult)) ∧
    (∀ r ∈ [rbTie, raTie], score r < maxFloat64) ∧
    (getWinner [rbTie, raTie] ∈ [rbTie, raTie] ∧
      (∀ r ∈ [rbTie, raTie], score (getWinner [rbTie, raTie]) ≤ score r) ∧
      ∀ l₁ l₂, [rbTie, raTie] = l₁ ++ l₂ →
        (∃ r ∈ l₁, ∀ x ∈ [rbTie, raTie], score r ≤ score x) →
        getWinner [rbTie, raTie] = getWinner l₁) :=
  ⟨by decide, by decide,
    c2_getWinner_minimal_and_earliest [rbTie, raTie] (by decide) (by decide)⟩

/-- The `Run` loop threads the recommendation accumulator through every
iteration without ever writing to it. -/
theorem runLoop_recommendation (env : RunEnv) (shoot : Shoot) :
    ∀ (fuel runNumber : Nat) (pods : List Pod) (rec : List (String × Nat))
      (winners : List NodeRunResult) (muts : List (List Node)),
      (runLoop env shoot fuel runNumber pods rec winners muts).recommendation = rec := by
  intro fuel
  induction fuel with
  | zero => intro _ _ _ _ _; rfl
  | succ n ih =>
    intro runNumber pods rec winners muts
    simp only [runLoop]
    split
    · rfl
    · split
      · rfl
      · split
        · rfl
        · exact ih _ _ _ _ _

/-- C1: false on the code — `Run` creates the recommendation map and
returns it, but no statement of the loop ever increments an entry: the
returned recommendation is empty for every environment and fuel, even in an
execution whose first round selects a winner. -/
theorem c1_winning_round_never_increments_recommendation :
    (∀ (env : RunEnv) (fuel : Nat), (Run env fuel).recommendation = []) ∧
    (Run demoRunEnv 5).winners = [zeroNodeRunResult] ∧
    (Run demoRunEnv 5).recommendation = [] := by
  refine ⟨fun env fuel => ?_, by decide, by decide⟩
  unfold Run
  split
  · rfl
  · split
    · rfl
    · exact runLoop_recommendation _ _ _ _ _ _ _ _

/-- C3: false on the code — in a round whose every launched trial reports a
failure (here: the only trial fails on its first gateway call), the errors
are dropped (`errors.Join`'s value is discarded at line 150), and the round
returns a non-nil winner pointer to a zero-valued result together with a
nil error, instead of no winner plus an aggregate error. -/
theorem c3_all_trials_failed_round_returns_zero_winner_and_nil_error :
    (∀ t ∈ triggerNodePoolSimulations allFailRoundEnv [demoPool] 1,
        t.sends ≠ [] ∧ ∀ r ∈ t.sends, r.err.isSome) ∧
    runSimulation allFailRoundEnv demoShoot ["pod-a"] 1 =
      .ok ⟨some zeroNodeRunResult, [], []⟩ := by decide

/-- C4: false on the code — with exactly one initially pending pod (and all
gateway calls succeeding), the loop performs 2 runs, exceeding the claimed
bound of 1; it terminates only because the zero-valued winner of the first
round replaces the pending set with the zero value's nil pod list, and its
exit is the plain all-scheduled break: the code has no no-progress
detection (`RunExit` has no such case because `Run` has no such branch). -/
theorem c4_two_runs_for_one_pod_and_no_progress_guard_missing :
    demoRunEnv.listPodsRes = .ok ["pod-a"] ∧
    (Run demoRunEnv 5).runNumber = 2 ∧
    (Run demoRunEnv 5).exit = some RunExit.allScheduled := by decide

/-- C5: false on the code — a trial whose `ListNodes` and `ListPods` calls
both succeed reaches the end of `runSimulationForNodePool` (line 201)
without ever sending on the result channel, so it produces zero results,
not exactly one. -/
theorem c5_successful_trial_sends_no_result :
    ∀ (nodes : List Node) (pods : List Pod) (np : NodePool) (runNum : Nat),
      (runSimulationForNodePool ⟨.ok nodes, none, .ok pods⟩ np runNum).sends = [] :=
  fun _ _ _ _ => rfl

/-- C7: when the initial pod listing returns an empty pending set (and the
shoot fetch succeeds), `Run` returns an empty recommendation and a nil
error, selects no winner, and issues no sandbox mutation, for any fuel. -/
theorem c7_empty_pending_returns_empty_and_mutates_nothing
    (env : RunEnv) (shoot : Shoot) (fuel : Nat)
    (hpods : env.listPodsRes = .ok [])
    (hshoot : env.getShootObj = .ok shoot) :
    (Run env fuel).recommendation = [] ∧
    (Run env fuel).err = none ∧
    (Run env fuel).mutations = [] ∧
    (Run env fuel).winners = [] := by
  unfold Run
  rw [hpods, hshoot]
  cases fuel with
  | zero => exact ⟨rfl, rfl, rfl, rfl⟩
  | succ n => exact ⟨rfl, rfl, rfl, rfl⟩

/-- C7 witness: the theorem applied to the concrete empty-pending
environment. -/
theorem c7_empty_pending_witness :
    emptyPendingRunEnv.listPodsRes = .ok [] ∧
    emptyPendingRunEnv.getShootObj = .ok demoShoot ∧
    ((Run emptyPendingRunEnv 3).recommendation = [] ∧
      (Run emptyPendingRunEnv 3).err = none ∧
      (Run emptyPendingRunEnv 3).mutations = [] ∧
      (Run emptyPendingRunEnv 3).winners = []) :=
  ⟨rfl, rfl,
    c7_empty_pending_returns_empty_and_mutates_nothing emptyPendingRunEnv demoShoot 3
      rfl rfl⟩

/-- C8: whenever the initial pod listing and the shoot fetch succeed, `Run`
returns a nil error, whatever the rounds do — a simulation round's error
only breaks the loop (line 93) and line 102 returns nil unconditionally. -/
theorem c8_round_errors_not_propagated
    (env : RunEnv) (pods : List Pod) (shoot : Shoot) (fuel : Nat)
    (hpods : env.listPodsRes = .ok pods)
    (hshoot : env.getShootObj = .ok shoot) :
    (Run env fuel).err = none := by
  unfold Run
  rw [hpods, hshoot]

/-- C8 witness: the theorem applied to a concrete environment whose first
round errors out; the loop breaks with that round error, yet `Run`'s
returned error is nil. -/
theorem c8_round_errors_not_propagated_witness :
    failingRoundRunEnv.listPodsRes = .ok ["pod-a"] ∧
    failingRoundRunEnv.getShootObj = .ok demoShoot ∧
    (Run failingRoundRunEnv 5).exit = some (RunExit.roundError "boom") ∧
    (Run failingRoundRunEnv 5).err = none :=
  ⟨rfl, rfl, by decide,
    c8_round_errors_not_propagated failingRoundRunEnv ["pod-a"] demoShoot 5 rfl rfl⟩

/-- C9: the error returned by `AddNodes` inside a trial is discarded: the
trial's observable behavior is identical whether `AddNodes` failed or not —
it continues to the `ListPods` call and reports no failed result. -/
theorem c9_addNodes_error_ignored :
    ∀ (nodes : List Node) (pods : List Pod) (e : Err) (np : NodePool) (runNum : Nat),
      runSimulationForNodePool ⟨.ok nodes, some e, .ok pods⟩ np runNum =
        runSimulationForNodePool ⟨.ok nodes, none, .ok pods⟩ np runNum ∧
      (runSimulationForNodePool ⟨.ok nodes, some e, .ok pods⟩ np runNum).calls =
        [.listNodes,
          .addNodes (mkTrialNodes (np.name ++ "-" ++ toString runNum) nodes),
          .listPods] ∧
      (runSimulationForNodePool ⟨.ok nodes, some e, .ok pods⟩ np runNum).sends = [] :=
  fun _ _ _ _ _ => ⟨rfl, rfl, rfl⟩

/-- C10: the clear-virtual-cluster handler writes the success body before
checking the `ClearAll` error, so on failure the client receives the
success message first, with the error response appended after it. -/
theorem c10_success_body_written_before_error_check :
    ∀ e : Err,
      handleClearVirtualCluster (some e) =
        [.body "Cleared virtual cluster objects", .httpError e 500] ∧
      (handleClearVirtualCluster (some e)).head? =
        some (.body "Cleared virtual cluster objects") :=
  fun _ => ⟨rfl, rfl⟩

/-- Go's `int32` conversion is the identity on counts below 2^31. -/
theorem toInt32_eq_of_lt (n : Nat) (h : n < 2 ^ 31) : toInt32 n = n := by
  unfold toInt32
  omega

/-- Characterization of the eligibility loop: when every pool query
succeeds, it returns a pool list that is sound (every produced record comes
from a worker strictly below its maximum) and complete (every worker
strictly below its maximum contributes its record). -/
theorem getEligibleNodePoolsAux_spec (q : String → Except Err (List Node)) :
    ∀ ws : List Worker, (∀ w ∈ ws, ∃ ns, q w.name = .ok ns) →
      ∃ pools, getEligibleNodePoolsAux q ws = .ok pools ∧
        (∀ np ∈ pools, ∃ w ∈ ws, ∃ ns, q w.name = .ok ns ∧
          ¬ toInt32 ns.length ≥ w.maximum ∧ np = mkNodePool w ns.length) ∧
        (∀ w ∈ ws, ∀ ns, q w.name = .ok ns → ¬ toInt32 ns.length ≥ w.maximum →
          mkNodePool w ns.length ∈ pools) := by
  intro ws
  induction ws with
  | nil =>
    intro _
    exact ⟨[], rfl, fun np hnp => absurd hnp (List.not_mem_nil np),
      fun w hw => absurd hw (List.not_mem_nil w)⟩
  | cons w rest ih =>
    intro hq
    obtain ⟨ns, hns⟩ := hq w (List.mem_cons_self w rest)
    obtain ⟨pools, hp, hsound, hcomp⟩ :=
      ih fun w' hw' => hq w' (List.mem_cons_of_mem w hw')
    by_cases hge : toInt32 ns.length ≥ w.maximum
    · refine ⟨pools, ?_, ?_, ?_⟩
      · simp only [getEligibleNodePoolsAux, hns]
        rw [if_pos hge]
        exact hp
      · intro np hnp
        obtain ⟨w', hw', ns', h1, h2, h3⟩ := hsound np hnp
        exact ⟨w', List.mem_cons_of_mem w hw', ns', h1, h2, h3⟩
      · intro w' hw' ns' hns' hnge
        rcases List.mem_cons.mp hw' with heq | hw'
        · subst heq
          have hns'' : ns' = ns := by
            rw [hns] at hns'
            exact (Except.ok.inj hns').symm
          subst hns''
          exact absurd hge hnge
        · exact hcomp w' hw' ns' hns' hnge
    · refine ⟨mkNodePool w ns.length :: pools, ?_, ?_, ?_⟩
      · simp only [getEligibleNodePoolsAux, hns]
        rw [if_neg hge, hp]
      · intro np hnp
        rcases List.mem_cons.mp hnp with heq | hnp
        · exact ⟨w, List.mem_cons_self w rest, ns, hns, hge, heq⟩
        · obtain ⟨w', hw', ns', h1, h2, h3⟩ := hsound np hnp
          exact ⟨w', List.mem_cons_of_mem w hw', ns', h1, h2, h3⟩
      · intro w' hw' ns' hns' hnge
        rcases List.mem_cons.mp hw' with heq | hw'
        · subst heq
          have hns'' : ns' = ns := by
            rw [hns] at hns'
            exact (Except.ok.inj hns').symm
          subst hns''
          exact List.mem_cons_self _ pools
        · exact List.mem_cons_of_mem _ (hcomp w' hw' ns' hns' hnge)

/-- C6: when every per-pool node query succeeds (with realistic counts
below 2^31), `getEligibleNodePools` returns, without error, a pool list in
which a worker pool's record appears if and only if its current sandbox
node count is strictly below its configured maximum; pools at or over
maximum are silently skipped. -/
theorem c6_eligible_iff_current_below_max (q : String → Except Err (List Node))
    (shoot : Shoot)
    (hq : ∀ w ∈ shoot.workers, ∃ ns, q w.name = .ok ns)
    (hsmall : ∀ w ∈ shoot.workers, ∀ ns, q w.name = .ok ns → ns.length < 2 ^ 31) :
    ∃ pools, getEligibleNodePools q shoot = .ok pools ∧
      ∀ w ∈ shoot.workers, ∀ ns, q w.name = .ok ns →
        (mkNodePool w ns.length ∈ pools ↔ (ns.length : Int) < w.maximum) := by
  obtain ⟨pools, hp, hsound, hcomp⟩ := getEligibleNodePoolsAux_spec q shoot.workers hq
  refine ⟨pools, hp, fun w hw ns hns => ?_⟩
  have hn32 : toInt32 ns.length = (ns.length : Int) :=
    toInt32_eq_of_lt ns.length (hsmall w hw ns hns)
  constructor
  · intro hmem
    obtain ⟨w', hw', ns', _h1, h2, h3⟩ := hsound _ hmem
    simp only [mkNodePool, NodePool.mk.injEq] at h3
    obtain ⟨_, _, hmax, hcur, _⟩ := h3
    rw [← hn32, hcur, hmax]
    exact not_le.mp h2
  · intro hlt
    refine hcomp w hw ns hns ?_
    rw [hn32]
    exact not_le.mpr hlt

/-- C6 witness: the theorem applied to the demo shoot with an empty
sandbox. -/
theorem c6_eligible_iff_current_below_max_witness :
    (∀ w ∈ demoShoot.workers, ∃ ns, emptyPoolQuery w.name = .ok ns) ∧
    (∀ w ∈ demoShoot.workers, ∀ ns, emptyPoolQuery w.name = .ok ns →
      ns.length < 2 ^ 31) ∧
    (∃ pools, getEligibleNodePools emptyPoolQuery demoShoot = .ok pools ∧
      ∀ w ∈ demoShoot.workers, ∀ ns, emptyPoolQuery w.name = .ok ns →
        (mkNodePool w ns.length ∈ pools ↔ (ns.length : Int) < w.maximum)) := by
  have h1 : ∀ w ∈ demoShoot.workers, ∃ ns, emptyPoolQuery w.name = .ok ns :=
    fun _ _ => ⟨[], rfl⟩
  have h2 : ∀ w ∈ demoShoot.workers, ∀ ns, emptyPoolQuery w.name = .ok ns →
      ns.length < 2 ^ 31 := by
    intro w _ ns hns
    simp only [emptyPoolQuery] at hns
    injection hns with h
    subst h
    decide
  exact ⟨h1, h2, c6_eligible_iff_current_below_max emptyPoolQuery demoShoot h1 h2⟩

end ScalerSim
